import Mathlib

/-!
Verification of `pkg/client/unversioned/client.go`: the Kubernetes client
facade, its discovery operations (`ServerVersion`, `ServerAPIVersions`,
`SupportedResourcesForGroupVersion`, `SupportedResources`), the component
validator (`ValidateComponents`), and the transport-timeout classifier
(`IsTimeout`).

The HTTP request builder/executor (`RESTClient.Get().AbsPath(...).Do().Raw()`)
and `encoding/json.Unmarshal` are external collaborators; they are modelled
as function parameters (`RESTClient.get`, the `unmarshal*` arguments).
-/

/-! ## Strings: `strings.Contains` -/

/-- Go `strings.HasPrefix` over the character list: does `hay` start with `needle`? -/
def charListStartsWith : List Char → List Char → Bool
  | _, [] => true
  | [], _ :: _ => false
  | c :: cs, d :: ds => c = d && charListStartsWith cs ds

/-- Go substring search over character lists: does `needle` occur inside `hay`? -/
def charListHasSub : List Char → List Char → Bool
  | [], needle => needle.isEmpty
  | c :: cs, needle => charListStartsWith (c :: cs) needle || charListHasSub cs needle

/-- Model of Go `strings.Contains s sub`. -/
def goContains (s sub : String) : Bool :=
  charListHasSub s.data sub.data

/-! ## Requests and the transport executor -/

/-- A request issued through the builder contract: either an absolute path
given as segments (`Get().AbsPath(seg₁, seg₂, ...)`) or the unversioned API
root (`Get().UnversionedPath(p)`). -/
inductive Request where
  | absPath (segments : List String)
  | unversionedPath (p : String)
  deriving DecidableEq

/-- The transport executor: `RESTClient` as consumed by this file.
Executing a request blocks and yields the raw body or an error message. -/
structure RESTClient where
  get : Request → Except String String

/-- Modelled from the spec: the extensions sub-facade (`ExtensionsClient`,
defined outside this file's source) is an immutable handle bound to its own
transport. -/
structure ExtensionsClient where
  rest : RESTClient

/-- `Client` embeds a `*RESTClient` and a `*ExtensionsClient`. -/
structure Client where
  restClient : RESTClient
  extensionsClient : ExtensionsClient

/-! ## Decoded payload types (collaborator data, opaque to this core) -/

/-- Modelled from the spec: decoded server build/version metadata
(`version.Info`, defined outside this file's source); opaque beyond being
JSON-decodable. -/
structure VersionInfo where
  payload : String
  deriving DecidableEq

/-- Modelled from the spec: ordered sequence of group-version identifier
strings (`unversioned.APIVersions`, defined outside this file's source). -/
structure APIVersions where
  versions : List String
  deriving DecidableEq

/-- Modelled from the spec: the resource kinds one group-version exposes
(`unversioned.APIResourceList`, defined outside this file's source). -/
structure APIResourceList where
  names : List String
  deriving DecidableEq

/-- Modelled from the spec: one component-status record
(`api.ComponentStatus`, defined outside this file's source): name,
condition, message. -/
structure ComponentStatus where
  name : String
  condition : String
  message : String
  deriving DecidableEq

/-- `api.ComponentStatusList`: ordered sequence of `ComponentStatus` items. -/
structure ComponentStatusList where
  items : List ComponentStatus
  deriving DecidableEq

/-! ## Operation errors -/

/-- Errors surfaced by the client operations: a transport error propagated
unchanged, a decode failure wrapped via
`fmt.Errorf("got '%s': %v", string(body), err)`, or a decode failure
returned unmodified (as `SupportedResourcesForGroupVersion` does). -/
inductive OpError where
  | transport (msg : String)
  | decodeWrapped (body : String) (parseErr : String)
  | decodePlain (parseErr : String)
  deriving DecidableEq

/-- The textual message of an operation error; for `decodeWrapped` it is the
`fmt.Errorf("got '%s': %v", string(body), err)` rendering. -/
def OpError.message : OpError → String
  | .transport m => m
  | .decodeWrapped body parseErr => "got '" ++ body ++ "': " ++ parseErr
  | .decodePlain parseErr => parseErr

/-! ## Facade accessors

The per-resource sub-client constructors (`newPods`, `newNodes`, ...) are
outside this file's source. Modelled from the spec: each accessor returns a
new sub-client value bound to the facade (hence its transport) and, where
applicable, the namespace argument. -/

/-- A namespaced sub-client: holds the facade handle and the namespace. -/
structure NamespacedSubClient where
  client : Client
  ns : String

/-- A cluster-scoped sub-client: holds the facade handle. -/
structure ClusterSubClient where
  client : Client

def Client.ReplicationControllers (c : Client) (ns : String) : NamespacedSubClient :=
  ⟨c, ns⟩

def Client.Nodes (c : Client) : ClusterSubClient :=
  ⟨c⟩

def Client.Events (c : Client) (ns : String) : NamespacedSubClient :=
  ⟨c, ns⟩

def Client.Endpoints (c : Client) (ns : String) : NamespacedSubClient :=
  ⟨c, ns⟩

def Client.Pods (c : Client) (ns : String) : NamespacedSubClient :=
  ⟨c, ns⟩

def Client.PodTemplates (c : Client) (ns : String) : NamespacedSubClient :=
  ⟨c, ns⟩

def Client.Services (c : Client) (ns : String) : NamespacedSubClient :=
  ⟨c, ns⟩

def Client.LimitRanges (c : Client) (ns : String) : NamespacedSubClient :=
  ⟨c, ns⟩

def Client.ResourceQuotas (c : Client) (ns : String) : NamespacedSubClient :=
  ⟨c, ns⟩

def Client.ServiceAccounts (c : Client) (ns : String) : NamespacedSubClient :=
  ⟨c, ns⟩

def Client.Secrets (c : Client) (ns : String) : NamespacedSubClient :=
  ⟨c, ns⟩

def Client.Namespaces (c : Client) : ClusterSubClient :=
  ⟨c⟩

def Client.PersistentVolumes (c : Client) : ClusterSubClient :=
  ⟨c⟩

def Client.PersistentVolumeClaims (c : Client) (ns : String) : NamespacedSubClient :=
  ⟨c, ns⟩

def Client.ComponentStatuses (c : Client) : ClusterSubClient :=
  ⟨c⟩

/-- `func (c *Client) Extensions() ExtensionsInterface { return c.ExtensionsClient }` -/
def Client.Extensions (c : Client) : ExtensionsClient :=
  c.extensionsClient

/-! ## Discovery Service and Component Validator -/

/-- `ServerVersion`: GET `/version`, decode the body as `version.Info`;
decode failure is wrapped with the raw body text. -/
def Client.ServerVersion (c : Client)
    (unmarshalInfo : String → Except String VersionInfo) :
    Except OpError VersionInfo :=
  match c.restClient.get (.absPath ["/version"]) with
  | .error e => .error (.transport e)
  | .ok body =>
    match unmarshalInfo body with
    | .error parseErr => .error (.decodeWrapped body parseErr)
    | .ok info => .ok info

/-- `ServerAPIVersions` (the `Client` method): GET the unversioned API root,
decode the body as `unversioned.APIVersions`; decode failure is wrapped with
the raw body text. -/
def Client.ServerAPIVersions (c : Client)
    (unmarshalVersions : String → Except String APIVersions) :
    Except OpError APIVersions :=
  match c.restClient.get (.unversionedPath "") with
  | .error e => .error (.transport e)
  | .ok body =>
    match unmarshalVersions body with
    | .error parseErr => .error (.decodeWrapped body parseErr)
    | .ok v => .ok v

/-- The path prefix selected by `SupportedResourcesForGroupVersion`:
`"/api"` for the legacy literal `"v1"`, `"/apis"` for every other string. -/
def prefixFor (groupVersion : String) : String :=
  if groupVersion = "v1" then "/api" else "/apis"

/-- `SupportedResourcesForGroupVersion`: GET `AbsPath(prefix, groupVersion)`,
decode the body as `unversioned.APIResourceList`; a decode failure is
returned as-is (not wrapped with the body). -/
def Client.SupportedResourcesForGroupVersion (c : Client)
    (unmarshalResources : String → Except String APIResourceList)
    (groupVersion : String) :
    Except OpError APIResourceList :=
  match c.restClient.get (.absPath [prefixFor groupVersion, groupVersion]) with
  | .error e => .error (.transport e)
  | .ok body =>
    match unmarshalResources body with
    | .error parseErr => .error (.decodePlain parseErr)
    | .ok resources => .ok resources

/-- Go map assignment `m[k] = v` over an association-list map: replace the
entry for `k` if present, else append it. -/
def mapInsert {α : Type} : List (String × α) → String → α → List (String × α)
  | [], k, v => [(k, v)]
  | p :: m, k, v => if p.1 = k then (k, v) :: m else p :: mapInsert m k v

/-- Go map read `m[k]` over an association-list map. -/
def mapLookup {α : Type} : List (String × α) → String → Option α
  | [], _ => none
  | p :: m, k => if p.1 = k then some p.2 else mapLookup m k

/-- The `for _, groupVersion := range apis` loop body of `SupportedResources`:
fetch each group-version's resource list in order, failing fast. -/
def supportedResourcesLoop
    (fetch : String → Except OpError APIResourceList) :
    List String → List (String × APIResourceList) →
    Except OpError (List (String × APIResourceList))
  | [], result => .ok result
  | groupVersion :: rest, result =>
    match fetch groupVersion with
    | .error e => .error e
    | .ok resources => supportedResourcesLoop fetch rest (mapInsert result groupVersion resources)

/-- `SupportedResources(c, cfg)`: the version-listing call
`ServerAPIVersions(cfg)` is a free function outside this file's source, so
its outcome is the `apis` parameter; `fetch` is
`c.SupportedResourcesForGroupVersion`. On the listing error or the first
fetch error the whole operation returns only that error. -/
def SupportedResources
    (fetch : String → Except OpError APIResourceList)
    (apis : Except OpError (List String)) :
    Except OpError (List (String × APIResourceList)) :=
  match apis with
  | .error e => .error e
  | .ok groupVersions => supportedResourcesLoop fetch groupVersions []

/-- `ValidateComponents`: GET `/validate`, decode the body as a JSON array of
`api.ComponentStatus`, wrap into a `ComponentStatusList`; decode failure is
wrapped with the raw body text. -/
def Client.ValidateComponents (c : Client)
    (unmarshalStatuses : String → Except String (List ComponentStatus)) :
    Except OpError ComponentStatusList :=
  match c.restClient.get (.absPath ["/validate"]) with
  | .error e => .error (.transport e)
  | .ok body =>
    match unmarshalStatuses body with
    | .error parseErr => .error (.decodeWrapped body parseErr)
    | .ok statuses => .ok ⟨statuses⟩

/-! ## Error classifier `IsTimeout` -/

/-- A transport-layer error that is not a `*url.Error` wrapper: either it
implements `net.Error` (exposing a structured `Timeout()` predicate) or it is
a plain error with only a message. -/
inductive BaseError where
  | net (timeout : Bool) (msg : String)
  | basic (msg : String)
  deriving DecidableEq

/-- The `Error()` message of a base error. -/
def BaseError.message : BaseError → String
  | .net _ m => m
  | .basic m => m

/-- A transport-layer error value as inspected by `IsTimeout`: either a
`*url.Error` wrapper around an inner error (its `Error()` text prefixes the
inner message, as `fmt.Sprintf("%s %q: %s", e.Op, e.URL, e.Err)` does), or a
bare error. -/
inductive GoError where
  | url (pre : String) (inner : BaseError)
  | base (b : BaseError)
  deriving DecidableEq

/-- The `Error()` message of a transport-layer error. -/
def GoError.message : GoError → String
  | .url pre inner => pre ++ inner.message
  | .base b => b.message

/-- The closed-connection substring checked by `IsTimeout`'s fallback. -/
def closedNetworkMessage : String := "use of closed network connection"

/-- `IsTimeout`: nil is never a timeout; a `*url.Error` whose inner error is
a `net.Error` answers with the inner `Timeout()`; a bare `net.Error` answers
with its own `Timeout()`; otherwise the error's message is searched for the
closed-connection substring. A Go `error` is `Option GoError` (`none` = nil). -/
def IsTimeout : Option GoError → Bool
  | none => false
  | some err =>
    match err with
    | .url _ (.net timeout _) => timeout
    | .base (.net timeout _) => timeout
    | _ =>
      if goContains err.message closedNetworkMessage then true
      else false

/-- Does the error expose a structured timeout predicate where `IsTimeout`
looks for one (directly, or one level inside a `*url.Error` wrapper)? -/
def hasStructuredTimeout : GoError → Bool
  | .url _ (.net _ _) => true
  | .base (.net _ _) => true
  | _ => false

/-! ## Concrete fixtures used by witnesses and counterexamples -/

/-- A client whose transport answers every request with the same raw body. -/
def constClient (body : String) : Client :=
  ⟨⟨fun _ => .ok body⟩, ⟨⟨fun _ => .ok body⟩⟩⟩

/-- A `version.Info` decoder that always fails with a fixed parse error. -/
def viFailDecoder : String → Except String VersionInfo :=
  fun _ => .error "invalid character"

/-- An `APIVersions` decoder that always fails with a fixed parse error. -/
def avFailDecoder : String → Except String APIVersions :=
  fun _ => .error "invalid character"

/-- An `APIResourceList` decoder that always fails with a fixed parse error. -/
def rlFailDecoder : String → Except String APIResourceList :=
  fun _ => .error "invalid character"

/-- A `ComponentStatus`-array decoder that always fails with a fixed parse error. -/
def csFailDecoder : String → Except String (List ComponentStatus) :=
  fun _ => .error "invalid character"

/-- A `ComponentStatus`-array decoder returning two fixed records in order. -/
def csOkDecoder : String → Except String (List ComponentStatus) :=
  fun _ => .ok [⟨"controller-manager", "Healthy", "ok"⟩, ⟨"scheduler", "Healthy", "ok"⟩]

/-- The resource list a fixture fetch reports for each group-version. -/
def fixtureResources (groupVersion : String) : APIResourceList :=
  ⟨[groupVersion]⟩

/-- A per-group-version fetch that always succeeds. -/
def allOkFetch : String → Except OpError APIResourceList :=
  fun groupVersion => .ok (fixtureResources groupVersion)

/-- A per-group-version fetch that succeeds on `"v1"` and fails on
everything else. -/
def failAfterV1Fetch : String → Except OpError APIResourceList :=
  fun groupVersion =>
    if groupVersion = "v1" then .ok (fixtureResources groupVersion)
    else .error (.transport "connection refused")

/-! ## Substring lemmas -/

theorem charListStartsWith_refl (l : List Char) : charListStartsWith l l = true := by
  induction l with
  | nil => rfl
  | cons c cs ih => simp [charListStartsWith, ih]

theorem charListStartsWith_append (b c : List Char) :
    charListStartsWith (b ++ c) b = true := by
  induction b with
  | nil => cases c <;> rfl
  | cons x xs ih => simp [charListStartsWith, ih]

theorem charListHasSub_of_startsWith (hay needle : List Char)
    (h : charListStartsWith hay needle = true) :
    charListHasSub hay needle = true := by
  cases hay with
  | nil =>
    cases needle with
    | nil => rfl
    | cons d ds => simp [charListStartsWith] at h
  | cons c cs => simp [charListHasSub, h]

theorem charListHasSub_append_left (a rest needle : List Char)
    (h : charListHasSub rest needle = true) :
    charListHasSub (a ++ rest) needle = true := by
  induction a with
  | nil => simpa using h
  | cons x xs ih => simp [charListHasSub, ih]

theorem goContains_middle (a b c : String) :
    goContains (a ++ b ++ c) b = true := by
  unfold goContains
  rw [String.data_append, String.data_append, List.append_assoc]
  exact charListHasSub_append_left _ _ _
    (charListHasSub_of_startsWith _ _ (charListStartsWith_append _ _))

theorem goContains_right (a b : String) : goContains (a ++ b) b = true := by
  unfold goContains
  rw [String.data_append]
  exact charListHasSub_append_left _ _ _
    (charListHasSub_of_startsWith _ _
      (by simpa using charListStartsWith_refl b.data))

/-- The `fmt.Errorf("got '%s': %v", body, err)` rendering contains both the
raw body and the parse error. -/
theorem decodeWrapped_message_contains (body parseErr : String) :
    goContains (OpError.message (.decodeWrapped body parseErr)) body = true ∧
    goContains (OpError.message (.decodeWrapped body parseErr)) parseErr = true := by
  constructor
  · have h := goContains_middle "got '" body ("': " ++ parseErr)
    simpa [OpError.message, String.append_assoc] using h
  · have h := goContains_right ("got '" ++ body ++ "': ") parseErr
    simpa [OpError.message, String.append_assoc] using h

/-! ## Claim theorems -/

/-- C7: `IsTimeout` applied to a nil error returns false. -/
theorem c7_isTimeout_nil : IsTimeout none = false := rfl

/-- C5: for every error exposing a structured timeout predicate — directly
(a `net.Error`) or one level inside a `*url.Error` wrapper — `IsTimeout`
returns exactly that predicate's value, the nested predicate taking
precedence for wrapped errors. -/
theorem c5_isTimeout_structured (t : Bool) (m pre : String) :
    IsTimeout (some (.base (.net t m))) = t ∧
    IsTimeout (some (.url pre (.net t m))) = t :=
  ⟨rfl, rfl⟩

/-- C6: for every non-nil error carrying no structured timeout signal,
`IsTimeout` returns true iff the error's message contains the
closed-network-connection substring, and false otherwise. -/
theorem c6_isTimeout_fallback (e : GoError)
    (h : hasStructuredTimeout e = false) :
    IsTimeout (some e) = goContains e.message closedNetworkMessage := by
  match e with
  | .url pre (.net t m) => simp [hasStructuredTimeout] at h
  | .url pre (.basic m) =>
    cases hc : goContains (GoError.message (.url pre (.basic m))) closedNetworkMessage <;>
      simp [IsTimeout, hc]
  | .base (.net t m) => simp [hasStructuredTimeout] at h
  | .base (.basic m) =>
    cases hc : goContains (GoError.message (.base (.basic m))) closedNetworkMessage <;>
      simp [IsTimeout, hc]

/-- Witness for C6 at a concrete unstructured error whose message contains
the closed-connection substring. -/
theorem c6_isTimeout_fallback_witness :
    hasStructuredTimeout (.base (.basic "read tcp: use of closed network connection")) = false ∧
    IsTimeout (some (.base (.basic "read tcp: use of closed network connection"))) =
      goContains (GoError.message (.base (.basic "read tcp: use of closed network connection")))
        closedNetworkMessage ∧
    IsTimeout (some (.base (.basic "read tcp: use of closed network connection"))) = true :=
  ⟨rfl, c6_isTimeout_fallback _ rfl, by decide⟩

/-- C3: `SupportedResourcesForGroupVersion g` issues its GET to
`<prefix>/<g>` where the prefix is the core prefix `"/api"` exactly when `g`
is the legacy literal `"v1"` and the grouped prefix `"/apis"` for every
other string, and the operation consults the transport only at that path. -/
theorem c3_prefix_selection (gv : String) :
    (prefixFor gv = "/api" ↔ gv = "v1") ∧
    (gv ≠ "v1" → prefixFor gv = "/apis") ∧
    (∀ (c₁ c₂ : Client) (u : String → Except String APIResourceList),
      c₁.restClient.get (.absPath [prefixFor gv, gv]) =
        c₂.restClient.get (.absPath [prefixFor gv, gv]) →
      c₁.SupportedResourcesForGroupVersion u gv =
        c₂.SupportedResourcesForGroupVersion u gv) := by
  refine ⟨⟨?_, ?_⟩, ?_, ?_⟩
  · intro h
    by_cases hv : gv = "v1"
    · exact hv
    · rw [prefixFor, if_neg hv] at h
      exact absurd h (by decide)
  · intro h
    rw [prefixFor, if_pos h]
  · intro h
    rw [prefixFor, if_neg h]
  · intro c₁ c₂ u h
    unfold Client.SupportedResourcesForGroupVersion
    rw [h]

/-- Witness for C3: the legacy literal selects the core prefix; a grouped
string selects the grouped prefix. -/
theorem c3_prefix_selection_witness :
    prefixFor "v1" = "/api" ∧ prefixFor "extensions/v1beta1" = "/apis" :=
  ⟨(c3_prefix_selection "v1").1.mpr rfl,
   (c3_prefix_selection "extensions/v1beta1").2.1 (by decide)⟩

/-- C10: `Extensions()` returns the stored extensions sub-facade of the
`Client` (the `ExtensionsClient` field itself, not a fresh construction),
the same value on every invocation, and leaves the `Client` unchanged. -/
theorem c10_extensions_returns_stored_facade (c : Client) :
    c.Extensions = c.extensionsClient ∧ c.Extensions = c.Extensions :=
  ⟨rfl, rfl⟩

/-- C9: every facade accessor is pure: calling it twice with the same
namespace yields equal sub-client values, each bound to the same facade
handle (hence the same transport) and namespace, with no error and no
mutation of the facade (accessors are total functions of `(c, ns)`). -/
theorem c9_accessors_pure (c : Client) (ns : String) :
    (c.ReplicationControllers ns = c.ReplicationControllers ns ∧
      (c.ReplicationControllers ns).client = c ∧ (c.ReplicationControllers ns).ns = ns) ∧
    (c.Nodes = c.Nodes ∧ (c.Nodes).client = c) ∧
    (c.Events ns = c.Events ns ∧ (c.Events ns).client = c ∧ (c.Events ns).ns = ns) ∧
    (c.Endpoints ns = c.Endpoints ns ∧ (c.Endpoints ns).client = c ∧ (c.Endpoints ns).ns = ns) ∧
    (c.Pods ns = c.Pods ns ∧ (c.Pods ns).client = c ∧ (c.Pods ns).ns = ns) ∧
    (c.PodTemplates ns = c.PodTemplates ns ∧
      (c.PodTemplates ns).client = c ∧ (c.PodTemplates ns).ns = ns) ∧
    (c.Services ns = c.Services ns ∧ (c.Services ns).client = c ∧ (c.Services ns).ns = ns) ∧
    (c.LimitRanges ns = c.LimitRanges ns ∧
      (c.LimitRanges ns).client = c ∧ (c.LimitRanges ns).ns = ns) ∧
    (c.ResourceQuotas ns = c.ResourceQuotas ns ∧
      (c.ResourceQuotas ns).client = c ∧ (c.ResourceQuotas ns).ns = ns) ∧
    (c.ServiceAccounts ns = c.ServiceAccounts ns ∧
      (c.ServiceAccounts ns).client = c ∧ (c.ServiceAccounts ns).ns = ns) ∧
    (c.Secrets ns = c.Secrets ns ∧ (c.Secrets ns).client = c ∧ (c.Secrets ns).ns = ns) ∧
    (c.Namespaces = c.Namespaces ∧ (c.Namespaces).client = c) ∧
    (c.PersistentVolumes = c.PersistentVolumes ∧ (c.PersistentVolumes).client = c) ∧
    (c.PersistentVolumeClaims ns = c.PersistentVolumeClaims ns ∧
      (c.PersistentVolumeClaims ns).client = c ∧ (c.PersistentVolumeClaims ns).ns = ns) ∧
    (c.ComponentStatuses = c.ComponentStatuses ∧ (c.ComponentStatuses).client = c) :=
  ⟨⟨rfl, rfl, rfl⟩, ⟨rfl, rfl⟩, ⟨rfl, rfl, rfl⟩, ⟨rfl, rfl, rfl⟩, ⟨rfl, rfl, rfl⟩,
    ⟨rfl, rfl, rfl⟩, ⟨rfl, rfl, rfl⟩, ⟨rfl, rfl, rfl⟩, ⟨rfl, rfl, rfl⟩, ⟨rfl, rfl, rfl⟩,
    ⟨rfl, rfl, rfl⟩, ⟨rfl, rfl⟩, ⟨rfl, rfl⟩, ⟨rfl, rfl, rfl⟩, ⟨rfl, rfl⟩⟩

/-! ## Map lemmas -/

theorem mapLookup_insert_self {α : Type} (m : List (String × α)) (k : String) (v : α) :
    mapLookup (mapInsert m k v) k = some v := by
  induction m with
  | nil => simp [mapInsert, mapLookup]
  | cons p m ih =>
    by_cases h : p.1 = k
    · simp [mapInsert, h, mapLookup]
    · simp [mapInsert, h, mapLookup, ih]

theorem mapLookup_insert_other {α : Type} (m : List (String × α)) (k k' : String) (v : α)
    (h : k' ≠ k) :
    mapLookup (mapInsert m k v) k' = mapLookup m k' := by
  induction m with
  | nil => simp [mapInsert, mapLookup, Ne.symm h]
  | cons p m ih =>
    by_cases hp : p.1 = k
    · subst hp
      simp [mapInsert, mapLookup, Ne.symm h]
    · simp [mapInsert, hp, mapLookup, ih]

/-! ## Loop lemmas for `SupportedResources` -/

theorem supportedResourcesLoop_fail
    (fetch : String → Except OpError APIResourceList)
    (gv : String) (after : List String) (e : OpError)
    (hfail : fetch gv = .error e) :
    ∀ (before : List String), (∀ g ∈ before, ∃ r, fetch g = .ok r) →
    ∀ (acc : List (String × APIResourceList)),
      supportedResourcesLoop fetch (before ++ gv :: after) acc = .error e := by
  intro before
  induction before with
  | nil =>
    intro _ acc
    simp [supportedResourcesLoop, hfail]
  | cons a rest ih =>
    intro hok acc
    obtain ⟨r, hr⟩ := hok a (by simp)
    simp only [List.cons_append, supportedResourcesLoop, hr]
    exact ih (fun g hg => hok g (by simp [hg])) _

theorem supportedResourcesLoop_ok
    (fetch : String → Except OpError APIResourceList)
    (r : String → APIResourceList) :
    ∀ (l : List String), (∀ g ∈ l, fetch g = .ok (r g)) →
    ∀ (acc : List (String × APIResourceList)),
      ∃ m, supportedResourcesLoop fetch l acc = .ok m ∧
        ∀ gv, mapLookup m gv = if gv ∈ l then some (r gv) else mapLookup acc gv := by
  intro l
  induction l with
  | nil =>
    intro _ acc
    exact ⟨acc, rfl, fun gv => by simp⟩
  | cons a rest ih =>
    intro hok acc
    have ha := hok a (by simp)
    obtain ⟨m, hm, hlook⟩ :=
      ih (fun g hg => hok g (by simp [hg])) (mapInsert acc a (r a))
    refine ⟨m, ?_, ?_⟩
    · simp only [supportedResourcesLoop, ha]
      exact hm
    · intro gv
      rw [hlook gv]
      by_cases hrest : gv ∈ rest
      · simp [hrest]
      · by_cases hgv : gv = a
        · subst hgv
          simp [hrest, mapLookup_insert_self]
        · simp [hrest, hgv, mapLookup_insert_other _ _ _ _ hgv]

/-! ## Remaining claim theorems -/

/-- C1: `SupportedResources` is all-or-nothing: for every API-version
listing and every per-group-version fetch outcome assignment, if the fetch
for some listed group-version fails (all earlier ones succeeding), the
whole operation returns exactly that error and no catalog value — entries
fetched for earlier group-versions appear in no returned result. -/
theorem c1_supportedResources_fail_fast
    (fetch : String → Except OpError APIResourceList)
    (before after : List String) (gv : String) (e : OpError)
    (hok : ∀ g ∈ before, ∃ r, fetch g = .ok r)
    (hfail : fetch gv = .error e) :
    SupportedResources fetch (.ok (before ++ gv :: after)) = .error e := by
  unfold SupportedResources
  exact supportedResourcesLoop_fail fetch gv after e hfail before hok []

/-- Witness for C1: listing `["v1", "ext/v1"]` where `"v1"` succeeds and
`"ext/v1"` fails yields only the `"ext/v1"` error; the fetched `"v1"` entry
is in no returned result. -/
theorem c1_supportedResources_fail_fast_witness :
    SupportedResources failAfterV1Fetch (.ok ["v1", "ext/v1"]) =
      .error (.transport "connection refused") := by
  have h := c1_supportedResources_fail_fast failAfterV1Fetch ["v1"] [] "ext/v1"
    (.transport "connection refused")
    (by
      intro g hg
      rw [List.mem_singleton] at hg
      subst hg
      exact ⟨fixtureResources "v1", rfl⟩)
    rfl
  simpa using h

/-- C4: on success, the aggregate catalog has exactly one entry per listed
group-version — an entry is present for a key iff the key was listed — and
each listed group-version maps to the resource list fetched for it. -/
theorem c4_supportedResources_complete
    (fetch : String → Except OpError APIResourceList)
    (r : String → APIResourceList) (l : List String)
    (hok : ∀ g ∈ l, fetch g = .ok (r g)) :
    ∃ m, SupportedResources fetch (.ok l) = .ok m ∧
      (∀ gv, (mapLookup m gv).isSome = true ↔ gv ∈ l) ∧
      (∀ gv ∈ l, mapLookup m gv = some (r gv)) := by
  obtain ⟨m, hm, hlook⟩ := supportedResourcesLoop_ok fetch r l hok []
  refine ⟨m, hm, ?_, ?_⟩
  · intro gv
    rw [hlook gv]
    by_cases hgv : gv ∈ l <;> simp [hgv, mapLookup]
  · intro gv hgv
    rw [hlook gv]
    simp [hgv]

/-- Witness for C4: listing `["v1", "extensions/v1beta1"]` with an
everywhere-succeeding fetch yields a catalog whose keys are exactly the two
listed group-versions, each mapped to its fetched list. -/
theorem c4_supportedResources_complete_witness :
    ∃ m, SupportedResources allOkFetch (.ok ["v1", "extensions/v1beta1"]) = .ok m ∧
      (∀ gv, (mapLookup m gv).isSome = true ↔ gv ∈ ["v1", "extensions/v1beta1"]) ∧
      (∀ gv ∈ ["v1", "extensions/v1beta1"], mapLookup m gv = some (fixtureResources gv)) :=
  c4_supportedResources_complete allOkFetch fixtureResources
    ["v1", "extensions/v1beta1"] (fun _ _ => rfl)

/-- C8: for every response body that decodes as an array of
component-status records, `ValidateComponents` returns a
`ComponentStatusList` whose items are exactly those records in order. -/
theorem c8_validateComponents_items_in_order (c : Client)
    (unmarshalStatuses : String → Except String (List ComponentStatus))
    (body : String) (statuses : List ComponentStatus)
    (hget : c.restClient.get (.absPath ["/validate"]) = .ok body)
    (hdec : unmarshalStatuses body = .ok statuses) :
    c.ValidateComponents unmarshalStatuses = .ok ⟨statuses⟩ := by
  unfold Client.ValidateComponents
  rw [hget]
  simp only [hdec]

/-- Witness for C8: a body decoding to two records yields exactly those two
items in the same order. -/
theorem c8_validateComponents_items_in_order_witness :
    (constClient "[..]").ValidateComponents csOkDecoder =
      .ok ⟨[⟨"controller-manager", "Healthy", "ok"⟩, ⟨"scheduler", "Healthy", "ok"⟩]⟩ :=
  c8_validateComponents_items_in_order (constClient "[..]") csOkDecoder "[..]"
    [⟨"controller-manager", "Healthy", "ok"⟩, ⟨"scheduler", "Healthy", "ok"⟩] rfl rfl

/-- C2 counterexample: `SupportedResourcesForGroupVersion` on a body that
fails to decode returns the parse failure unmodified; its message
(`"invalid character"`) does not contain the raw body text (`"not json"`),
refuting the claim that every Discovery/Validator operation wraps the body
into its decode error. -/
theorem c2_decode_error_wrapping_counterexample :
    (constClient "not json").SupportedResourcesForGroupVersion rlFailDecoder "v1" =
      .error (.decodePlain "invalid character") ∧
    goContains (OpError.message (.decodePlain "invalid character")) "not json" = false :=
  ⟨rfl, by decide⟩

/-- C2 amended: `ServerVersion`, `ServerAPIVersions` and
`ValidateComponents` wrap a decode failure together with the raw response
body text, but `SupportedResourcesForGroupVersion` returns the parse
failure unmodified, without the body. -/
theorem c2_decode_error_wrapping_amended (c : Client) (body parseErr : String) :
    (∀ unmarshalInfo : String → Except String VersionInfo,
      c.restClient.get (.absPath ["/version"]) = .ok body →
      unmarshalInfo body = .error parseErr →
      c.ServerVersion unmarshalInfo = .error (.decodeWrapped body parseErr) ∧
        goContains (OpError.message (.decodeWrapped body parseErr)) body = true ∧
        goContains (OpError.message (.decodeWrapped body parseErr)) parseErr = true) ∧
    (∀ unmarshalVersions : String → Except String APIVersions,
      c.restClient.get (.unversionedPath "") = .ok body →
      unmarshalVersions body = .error parseErr →
      c.ServerAPIVersions unmarshalVersions = .error (.decodeWrapped body parseErr) ∧
        goContains (OpError.message (.decodeWrapped body parseErr)) body = true ∧
        goContains (OpError.message (.decodeWrapped body parseErr)) parseErr = true) ∧
    (∀ unmarshalStatuses : String → Except String (List ComponentStatus),
      c.restClient.get (.absPath ["/validate"]) = .ok body →
      unmarshalStatuses body = .error parseErr →
      c.ValidateComponents unmarshalStatuses = .error (.decodeWrapped body parseErr) ∧
        goContains (OpError.message (.decodeWrapped body parseErr)) body = true ∧
        goContains (OpError.message (.decodeWrapped body parseErr)) parseErr = true) ∧
    (∀ (unmarshalResources : String → Except String APIResourceList) (gv : String),
      c.restClient.get (.absPath [prefixFor gv, gv]) = .ok body →
      unmarshalResources body = .error parseErr →
      c.SupportedResourcesForGroupVersion unmarshalResources gv =
        .error (.decodePlain parseErr)) := by
  refine ⟨?_, ?_, ?_, ?_⟩
  · intro u hget hdec
    refine ⟨?_, decodeWrapped_message_contains body parseErr⟩
    unfold Client.ServerVersion
    rw [hget]
    simp only [hdec]
  · intro u hget hdec
    refine ⟨?_, decodeWrapped_message_contains body parseErr⟩
    unfold Client.ServerAPIVersions
    rw [hget]
    simp only [hdec]
  · intro u hget hdec
    refine ⟨?_, decodeWrapped_message_contains body parseErr⟩
    unfold Client.ValidateComponents
    rw [hget]
    simp only [hdec]
  · intro u gv hget hdec
    unfold Client.SupportedResourcesForGroupVersion
    rw [hget]
    simp only [hdec]

/-- Witness for the amended C2 at a concrete malformed body: each wrapping
operation's error contains both the body and the parse failure, and
`SupportedResourcesForGroupVersion` returns only the parse failure. -/
theorem c2_decode_error_wrapping_amended_witness :
    ((constClient "not json").ServerVersion viFailDecoder =
        .error (.decodeWrapped "not json" "invalid character") ∧
      goContains (OpError.message (.decodeWrapped "not json" "invalid character"))
        "not json" = true ∧
      goContains (OpError.message (.decodeWrapped "not json" "invalid character"))
        "invalid character" = true) ∧
    ((constClient "not json").ServerAPIVersions avFailDecoder =
        .error (.decodeWrapped "not json" "invalid character") ∧
      goContains (OpError.message (.decodeWrapped "not json" "invalid character"))
        "not json" = true ∧
      goContains (OpError.message (.decodeWrapped "not json" "invalid character"))
        "invalid character" = true) ∧
    ((constClient "not json").ValidateComponents csFailDecoder =
        .error (.decodeWrapped "not json" "invalid character") ∧
      goContains (OpError.message (.decodeWrapped "not json" "invalid character"))
        "not json" = true ∧
      goContains (OpError.message (.decodeWrapped "not json" "invalid character"))
        "invalid character" = true) ∧
    (constClient "not json").SupportedResourcesForGroupVersion rlFailDecoder "extensions/v1beta1" =
      .error (.decodePlain "invalid character") :=
  ⟨(c2_decode_error_wrapping_amended (constClient "not json") "not json"
      "invalid character").1 viFailDecoder rfl rfl,
   (c2_decode_error_wrapping_amended (constClient "not json") "not json"
      "invalid character").2.1 avFailDecoder rfl rfl,
   (c2_decode_error_wrapping_amended (constClient "not json") "not json"
      "invalid character").2.2.1 csFailDecoder rfl rfl,
   (c2_decode_error_wrapping_amended (constClient "not json") "not json"
      "invalid character").2.2.2 rlFailDecoder "extensions/v1beta1" rfl rfl⟩
